import Mathlib

/-!
# Verification of the whisper dictation tool against its specification

Shallow embedding of the logic of the repository's source files:

* `src/transcriptionWorker.js` — the worker message handler's WAV
  sniff/decode path and its response messages;
* `unnamed/part_002` — the `resampleAudio` linear-interpolation resampler
  and the `transcribeAudio` error path;
* `unnamed/part_001` — the `processRealtimeAudio` busy-guard logic;
* `src/app.jsx` (three concatenated component variants) — model loading
  with a generation token, recording-session transcript handling, and the
  final-pass error path;
* `unnamed/part_000` / `src/transcriptionWorker.js` — `createChunkManager`.

Byte buffers are `List (Fin 256)`; float samples are embedded as `ℚ`
(the PCM16→float conversion and the resampler are exact rational
arithmetic on these values); JS numbers used as indices/sizes are `ℕ`/`ℤ`.
-/

set_option maxRecDepth 20000

abbrev Byte := Fin 256

instance {ε α : Type} [DecidableEq ε] [DecidableEq α] : DecidableEq (Except ε α) :=
  fun x y =>
    match x, y with
    | .ok a, .ok b => if h : a = b then .isTrue (by rw [h]) else .isFalse (by simp [h])
    | .error a, .error b =>
      if h : a = b then .isTrue (by rw [h]) else .isFalse (by simp [h])
    | .ok _, .error _ => .isFalse (by simp)
    | .error _, .ok _ => .isFalse (by simp)

/-! ## WAV sniff / decode path of the worker message handler

`src/transcriptionWorker.js`, lines 164–237.  The handler receives an
`ArrayBuffer` payload, sniffs for a `RIFF` header, scans for the `data`
chunk and converts 16-bit little-endian PCM to float samples; any
exception inside the `try` block falls back to reinterpreting the raw
bytes as a `Float32Array`.
-/

/-- `view.getUint8(o)` for offsets known to be in range (all uses below are
guarded by explicit length checks, mirroring the source's loop condition). -/
def byteAt (bytes : List Byte) (o : Nat) : Nat :=
  (bytes.getD o 0).val

/-- `view.getUint32(o, true)` — little-endian, `none` models the JS
`RangeError` thrown when the read crosses the end of the buffer. -/
def getUint32At (bytes : List Byte) (o : Nat) : Option Nat :=
  if o + 4 ≤ bytes.length then
    some (byteAt bytes o + 256 * byteAt bytes (o + 1) +
      65536 * byteAt bytes (o + 2) + 16777216 * byteAt bytes (o + 3))
  else none

/-- `view.getInt16(o, true)` — little-endian signed 16-bit read; `none`
models the JS `RangeError` on an out-of-bounds read. -/
def getInt16At (bytes : List Byte) (o : Nat) : Option Int :=
  if o + 2 ≤ bytes.length then
    let raw := byteAt bytes o + 256 * byteAt bytes (o + 1)
    some (if raw < 32768 then (raw : Int) else (raw : Int) - 65536)
  else none

/-- `int16 < 0 ? int16 / 32768 : int16 / 32767` (line 208 of the worker). -/
def pcm16ToFloat (v : Int) : ℚ :=
  if v < 0 then (v : ℚ) / 32768 else (v : ℚ) / 32767

/-- The PCM16 read loop (lines 203–210): `numSamples` iterations of
`view.getInt16(srcOffset, true)` starting at `off`, advancing 2 bytes per
sample.  An out-of-bounds read aborts with the JS `RangeError`. -/
def readPcm16 (bytes : List Byte) (off : Nat) : Nat → Except String (List ℚ)
  | 0 => .ok []
  | n + 1 =>
    match getInt16At bytes off with
    | none => .error "RangeError: out-of-bounds getInt16"
    | some v => (readPcm16 bytes (off + 2) n).map (fun rest => pcm16ToFloat v :: rest)

/-- The ASCII bytes of `'data'`. -/
def dataChunkId : List Nat := [100, 97, 116, 97]

/-- The ASCII bytes of `'RIFF'`. -/
def riffMagic : List Nat := [82, 73, 70, 70]

/-- The four chunk-id bytes at offset `o` (lines 183–188). -/
def chunkIdAt (bytes : List Byte) (o : Nat) : List Nat :=
  [byteAt bytes o, byteAt bytes (o + 1), byteAt bytes (o + 2), byteAt bytes (o + 3)]

/-- The `data`-chunk scan loop (lines 180–196): starting at offset 12,
read chunk id and little-endian 32-bit size while `dataOffset + 8 <=
view.byteLength`; on `'data'` return the offset just past the 8-byte
header together with the declared size; otherwise skip `8 + chunkSize`
bytes.  `none` models falling out of the loop with `dataSize === 0`. -/
def findDataChunkAux (bytes : List Byte) : Nat → Nat → Option (Nat × Nat)
  | 0, _ => none
  | fuel + 1, o =>
    if o + 8 ≤ bytes.length then
      let chunkSize := byteAt bytes (o + 4) + 256 * byteAt bytes (o + 5) +
        65536 * byteAt bytes (o + 6) + 16777216 * byteAt bytes (o + 7)
      if chunkIdAt bytes o = dataChunkId then some (o + 8, chunkSize)
      else findDataChunkAux bytes fuel (o + 8 + chunkSize)
    else none

/-- The scan loop entry: the fuel `bytes.length` only bounds the
recursion and is never exhausted before the loop condition `dataOffset + 8
<= view.byteLength` fails, because the offset strictly increases by at
least 8 per iteration (at most `bytes.length / 8 + 1` iterations can ever
run). -/
def findDataChunk (bytes : List Byte) (o : Nat) : Option (Nat × Nat) :=
  findDataChunkAux bytes bytes.length o

/-- The audio-input value the worker hands to the pipeline, as assembled
from an `ArrayBuffer` payload.  The raw reinterpretation paths keep the
32-bit little-endian words of the buffer (the bit patterns the JS
`Float32Array` view would expose as floats); the claims about these paths
concern only whether a sample buffer is produced at all, not the float
values. -/
inductive AudioInput where
  /-- `{ samples, sampleRate }` from a successful WAV parse (line 213). -/
  | wav (samples : List ℚ) (sampleRate : Nat)
  /-- `{ samples, sampleRate }` from the non-RIFF raw branch when the
  message carried a `sampleRate` (line 218). -/
  | rawWithRate (words : List Nat) (sampleRate : Nat)
  /-- A bare `Float32Array` over the payload (lines 220, 225). -/
  | raw (words : List Nat)
  deriving DecidableEq

/-- `new Float32Array(payload)`: the 32-bit little-endian words of the
buffer; the JS constructor throws a `RangeError` when the byte length is
not a multiple of 4. -/
def float32Words (bytes : List Byte) : Except String (List Nat) :=
  if bytes.length % 4 = 0 then
    .ok ((List.range (bytes.length / 4)).map fun i =>
      byteAt bytes (4 * i) + 256 * byteAt bytes (4 * i + 1) +
        65536 * byteAt bytes (4 * i + 2) + 16777216 * byteAt bytes (4 * i + 3))
  else .error "RangeError: byte length not a multiple of 4"

/-- The body of the inner `try` (lines 171–222): read the 12 header bytes
(`new Uint8Array(payload, 0, 12)` throws when the buffer is shorter), test
for `'RIFF'`; on a RIFF buffer read the sample rate at offset 24, scan for
the `data` chunk — throwing `'WAV data chunk not found'` when the scan
ends with `dataSize === 0` — and run the PCM16 loop for
`i < dataSize / 2` iterations (real division, hence `⌈dataSize/2⌉`);
on a non-RIFF buffer reinterpret the bytes as a `Float32Array`. -/
def tryDecodeWav (bytes : List Byte) (msgSampleRate : Option Nat) :
    Except String AudioInput :=
  if bytes.length < 12 then .error "RangeError: buffer shorter than 12 bytes"
  else if chunkIdAt bytes 0 = riffMagic then
    match getUint32At bytes 24 with
    | none => .error "RangeError: sampleRate read past end"
    | some sampleRate =>
      match findDataChunk bytes 12 with
      | none => .error "WAV data chunk not found"
      | some (dataOffset, dataSize) =>
        if dataSize = 0 then .error "WAV data chunk not found"
        else
          (readPcm16 bytes dataOffset ((dataSize + 1) / 2)).map
            (fun samples => .wav samples sampleRate)
  else
    (float32Words bytes).map fun words =>
      match msgSampleRate with
      | some r => .rawWithRate words r
      | none => .raw words

/-- The full audio-input determination for an `ArrayBuffer` payload
(lines 169–226): run the `try` block; on any exception fall back to
`audioInput = new Float32Array(payload)` in the `catch`.  `none` models
the fallback itself throwing, which propagates to the outer handler and
produces an `error` response. -/
def determineAudioInput (bytes : List Byte) (msgSampleRate : Option Nat) :
    Option AudioInput :=
  match tryDecodeWav bytes msgSampleRate with
  | .ok a => some a
  | .error _ =>
    match float32Words bytes with
    | .ok words => some (.raw words)
    | .error _ => none

/-- Does the worker hand the pipeline a raw (reinterpreted, non-WAV-parsed)
sample buffer? -/
def AudioInput.isRawBuffer : AudioInput → Bool
  | .raw _ => true
  | .rawWithRate _ _ => true
  | .wav _ _ => false

/-! ## Linear-interpolation resampler

`unnamed/part_002`, lines 18–44 (`resampleAudio`).  The source takes an
`AudioBuffer` and reads `audioBuffer.sampleRate` and channel 0; the
embedding takes the channel data and the two rates directly.  Arithmetic
is exact over `ℚ`; JS `Math.round` on non-negative values is
`⌊x + 1/2⌋`, which is Mathlib's `round`.
-/

/-- `Math.round(sourceData.length / sampleRateRatio)` with
`sampleRateRatio = sourceSampleRate / targetSampleRate`. -/
def resampleLength (len : Nat) (sourceRate targetRate : ℚ) : Nat :=
  (round ((len : ℚ) / (sourceRate / targetRate))).toNat

/-- The loop body of `resampleAudio` (lines 30–41): fractional source
position `i * sampleRateRatio`, integer part, fractional part, linear
interpolation when `index + 1 < sourceData.length`, else
`sourceData[index]`. -/
def resampleSampleAt (sourceData : List ℚ) (sourceRate targetRate : ℚ) (i : Nat) : ℚ :=
  let sourceIndex : ℚ := (i : ℚ) * (sourceRate / targetRate)
  let index : Nat := (⌊sourceIndex⌋).toNat
  let fraction : ℚ := sourceIndex - (index : ℚ)
  if index + 1 < sourceData.length then
    sourceData.getD index 0 * (1 - fraction) + sourceData.getD (index + 1) 0 * fraction
  else
    sourceData.getD index 0

/-- `resampleAudio` (lines 18–44): identity when the rates coincide,
otherwise the interpolation loop over the rounded output length. -/
def resampleAudio (sourceData : List ℚ) (sourceRate targetRate : ℚ) : List ℚ :=
  if sourceRate = targetRate then sourceData
  else (List.range (resampleLength sourceData.length sourceRate targetRate)).map
    (resampleSampleAt sourceData sourceRate targetRate)

/-- Reference resampler output sample, following the specification's words
(spec §4.1): "For each output index i, compute fractional source position
`i * sourceRate/targetRate`; linearly interpolate between the two
bracketing source samples; if the interpolation would read past the end of
input, clamp to the last sample."  This is the spec-side definition used
to compare `resampleAudio` against; it clamps explicitly to the last input
sample `x[len-1]`. -/
def resampleRefSample (x : List ℚ) (sourceRate targetRate : ℚ) (i : Nat) : ℚ :=
  let pos : ℚ := (i : ℚ) * (sourceRate / targetRate)
  let idx : Nat := (⌊pos⌋).toNat
  let frac : ℚ := pos - (idx : ℚ)
  if idx + 1 < x.length then
    x.getD idx 0 * (1 - frac) + x.getD (idx + 1) 0 * frac
  else
    x.getD (x.length - 1) 0

/-! ## Realtime processing busy guard

`unnamed/part_001`, lines 132–167 (`processRealtimeAudio`).  The state
captures the refs the function reads and writes; `engineCalls` counts the
engine invocations currently outstanding against the single pipeline
instance.
-/

structure RtState where
  /-- `transcriberRef.current !== null`. -/
  hasTranscriber : Bool
  /-- `audioChunksRef.current.length`. -/
  pendingChunks : Nat
  /-- `isBusyRef.current`. -/
  busy : Bool
  /-- Engine invocations currently in flight against the model instance. -/
  engineCalls : Nat
  deriving DecidableEq

/-- `processRealtimeAudio(isFinal)` up to the engine invocation: the guard
`if (!transcriberRef.current || (isBusyRef.current && !isFinal)) return;`,
the no-audio guard, `isBusyRef.current = true`, and the start of
`transcriberRef.current(url, …)` (which adds an outstanding engine
call). -/
def processRealtimeAudioStart (s : RtState) (isFinal : Bool) : RtState :=
  if !s.hasTranscriber || (s.busy && !isFinal) then s
  else if s.pendingChunks = 0 then s
  else { s with busy := true, engineCalls := s.engineCalls + 1 }

/-- The `finally` block of one completed invocation:
`isBusyRef.current = false`, and the outstanding call returns. -/
def processRealtimeAudioFinish (s : RtState) : RtState :=
  { s with busy := false, engineCalls := s.engineCalls - 1 }

/-- The at-most-one-in-flight invariant the spec asserts, coupled with the
busy flag. -/
def rtAtMostOne (s : RtState) : Prop :=
  s.engineCalls ≤ 1 ∧ (s.busy = true ↔ s.engineCalls = 1)

/-! ## Inference failure handling

`unnamed/part_002`, lines 287–302 (`transcribeAudio` pipeline error path)
and `src/app.jsx`, lines 474–496 (live-chunk variant `processAudio`).
-/

inductive PipelineOutcome where
  /-- The pipeline call resolved with `output.text`. -/
  | ok (text : String)
  /-- The pipeline call threw with `error.message`. -/
  | failed (message : String)
  deriving DecidableEq

/-- The displayed transcription after `transcribeAudio` in `part_002`
(lines 287–325), as a function of the previous display and the pipeline
outcome: success stores the trimmed text (or a no-speech marker), while
the `catch` **replaces** the display with a pipeline-error message. -/
def transcribeAudioResult (prev : String) (r : PipelineOutcome) : String :=
  match r with
  | .ok t => if (t.trim.length > 0) then t.trim else "(No speech detected)"
  | .failed m => "(Pipeline error: " ++ m ++ ")"

/-- Number of engine invocations one `part_002` `transcribeAudio` call
performs, by outcome: the pipeline is called exactly once and the error
path returns without retrying. -/
def transcribeAudioEngineCalls (_ : PipelineOutcome) : Nat := 1

/-- The displayed transcription after the live-chunk variant's final pass
`processAudio` (`src/app.jsx`, lines 474–496): success appends the final
text with a space separator, and the `catch` **appends**
`" [Error transcribing final audio]"` to the previous display. -/
def processAudioResult (prev : String) (r : PipelineOutcome) : String :=
  match r with
  | .ok t => prev ++ (if prev ≠ "" then " " else "") ++ t
  | .failed _ => prev ++ " [Error transcribing final audio]"

/-! ## Model loading with a generation token

`src/app.jsx`, lines 33–70 (`loadModel` with `loadTokenRef`).
-/

inductive UiStatus where
  | loading | ready | recording | processing | errored
  deriving DecidableEq

structure ModelState where
  /-- `loadTokenRef.current`. -/
  loadToken : Nat
  status : UiStatus
  progress : Nat
  /-- Generation number of the installed pipeline instance, if any
  (`transcriberRef.current`). -/
  transcriber : Option Nat
  deriving DecidableEq

/-- The synchronous head of `loadModel` (lines 34–38): increment the
token, remember it as `myToken`, set status `loading`, progress 0, and
clear `transcriberRef.current`. -/
def startLoad (s : ModelState) : ModelState × Nat :=
  ({ loadToken := s.loadToken + 1, status := .loading, progress := 0,
     transcriber := none }, s.loadToken + 1)

/-- The `progress_callback` (lines 45–50): ignore the event unless the
generation token still matches. -/
def onLoadProgress (s : ModelState) (myToken p : Nat) : ModelState :=
  if s.loadToken = myToken then { s with progress := p } else s

/-- Completion of the `pipeline(...)` await (lines 58–61): install the
instance and set status `ready` only when the token still matches. -/
def onLoadReady (s : ModelState) (myToken : Nat) : ModelState :=
  if s.loadToken = myToken then
    { s with transcriber := some myToken, status := .ready }
  else s

/-- The `catch` (lines 62–67): set status `error` only when the token
still matches. -/
def onLoadError (s : ModelState) (myToken : Nat) : ModelState :=
  if s.loadToken = myToken then { s with status := .errored } else s

/-! ## Recording-session transcript handling

`src/app.jsx`: the press-and-hold variant's `startRecording`
(lines 73–76) versus the live-chunk variant's `startRecording`
(lines 412–461, which never touches the transcription) and its
append-only result handling.
-/

structure SessionState where
  status : Option UiStatus
  transcription : String
  /-- `chunksRef.current.length` (live-chunk variant). -/
  chunkCount : Nat
  deriving DecidableEq

/-- Press-and-hold variant `startRecording` entry (app.jsx lines 74–76,
also part_001 lines 89–99, part_002 lines 114–115, part_003 lines 82–83):
`setStatus("recording"); setTranscription("");`. -/
def startRecordingMain (s : SessionState) : SessionState :=
  { s with status := some .recording, transcription := "" }

/-- Live-chunk variant `startRecording` (app.jsx lines 412–461): resets
`chunksRef.current = []` and sets status `recording`; the transcription is
left as it was. -/
def startRecordingLive (s : SessionState) : SessionState :=
  { s with chunkCount := 0, status := some .recording }

/-- Live-chunk variant result handling (app.jsx lines 439–441 and 484):
`setTranscription(prev => prev + (prev ? " " : "") + result.text)`. -/
def liveChunkAppend (prev text : String) : String :=
  prev ++ (if prev ≠ "" then " " else "") ++ text

/-! ## Worker response messages and the correlation id

`src/transcriptionWorker.js`: `createOrGetPipeline` (lines 36–65) posts
`initiate`/`progress` without any `messageId` and then either `ready`
(success, line 57) or — when `pipeline(...)` throws — an `error` post also
**without** any `messageId` (lines 59–63) before rethrowing;
`callback_function` (line 113) posts `update` without any `messageId`; the
message handler posts `pong`, `complete` and `error` with the request's
`messageId` (lines 158, 256, 259–263), the last of these also catching the
rethrown pipeline-init failure.
-/

structure WorkerMsg where
  status : String
  messageId : Option Nat
  deriving DecidableEq

/-- Messages posted by `createOrGetPipeline` when a fresh pipeline is
created: `initiate`, one `progress` per forwarded progress event, then
`ready` on success — or, when pipeline initialisation fails, the catch's
`{ status: "error", data: … }` post (lines 59–63), which carries no
`messageId`, before the exception is rethrown.  None of these posts
include a `messageId` field. -/
def pipelineLoadPosts (progressEvents : Nat) (initFails : Bool) : List WorkerMsg :=
  ⟨"initiate", none⟩ :: (List.replicate progressEvents ⟨"progress", none⟩) ++
    [if initFails then ⟨"error", none⟩ else ⟨"ready", none⟩]

/-- The posts produced while serving one transcription request carrying
correlation id `mid`.  When a fresh pipeline is created and its
initialisation fails, the load posts end with the id-less `error` post and
the rethrown exception reaches the handler's outer catch, which posts
`error` **with** the request's `messageId` (lines 259–263); no `ready`,
`update` or `complete` is posted.  Otherwise: the load posts (when a fresh
pipeline is created), one `update` per `callback_function` invocation that
decoded text, then `complete` with the request's `messageId` — or `error`
with the request's `messageId` when the pipeline call threw. -/
def workerResponses (mid : Option Nat) (freshLoad : Bool)
    (progressEvents updateEvents : Nat) (initFails transcribeFails : Bool) :
    List WorkerMsg :=
  if freshLoad && initFails then
    pipelineLoadPosts progressEvents true ++ [⟨"error", mid⟩]
  else
    (if freshLoad then pipelineLoadPosts progressEvents initFails else []) ++
      (List.replicate updateEvents ⟨"update", none⟩) ++
      [if transcribeFails then ⟨"error", mid⟩ else ⟨"complete", mid⟩]

/-! ## Chunk manager

`src/transcriptionWorker.js` lines 72–134 and `unnamed/part_000` lines
57–109 (`createChunkManager`), identical logic.  `chunks_to_process`
starts as one unfinalised entry; `chunk_callback` assigns the incoming
chunk over the last entry, marks it finalised and appends a fresh
unfinalised entry unless the chunk `is_last`; `callback_function`
replaces the token list of the last entry.
-/

structure ChunkEntry where
  tokens : List Nat
  /-- The `is_last` flag copied in by `Object.assign` (absent — `false` —
  on a freshly pushed entry). -/
  isLast : Bool
  finalised : Bool
  deriving DecidableEq

/-- An incoming chunk from the pipeline's `chunk_callback`. -/
structure IncomingChunk where
  tokens : List Nat
  is_last : Bool
  deriving DecidableEq

/-- The initial `chunks_to_process` (lines 77–82):
`[{ tokens: [], finalised: false }]`. -/
def initialChunks : List ChunkEntry := [⟨[], false, false⟩]

/-- `chunk_callback` (lines 84–92): `Object.assign(last, chunk)` then
`last.finalised = true` on the last entry (the list is non-empty
throughout, as proved below), then push a fresh unfinalised entry when
`!chunk.is_last`. -/
def chunk_callback (cs : List ChunkEntry) (c : IncomingChunk) : List ChunkEntry :=
  let cs' := cs.dropLast ++ [⟨c.tokens, c.is_last, true⟩]
  if c.is_last then cs' else cs' ++ [⟨[], false, false⟩]

/-- `callback_function` (lines 94–99):
`last.tokens = [...(item[0]?.output_token_ids || last.tokens)]` — replace
the last entry's tokens by the first sequence's token ids when present
(`none` models a missing `output_token_ids`, which keeps the old
tokens). -/
def callback_function (cs : List ChunkEntry) (item : Option (List Nat)) :
    List ChunkEntry :=
  match cs.getLast? with
  | none => cs
  | some last => cs.dropLast ++ [{ last with tokens := item.getD last.tokens }]

/-- The invariant of `chunks_to_process`: non-empty, and every entry other
than the last is finalised. -/
def chunksWellFormed (cs : List ChunkEntry) : Prop :=
  cs ≠ [] ∧ ∀ e ∈ cs.dropLast, e.finalised = true

instance (cs : List ChunkEntry) : Decidable (chunksWellFormed cs) := by
  unfold chunksWellFormed; infer_instance

/-! ## Concrete byte buffers used as test inputs -/

/-- A 12-byte buffer that does not start with `'RIFF'`. -/
def nonRiffBytes : List Byte := List.replicate 12 0

/-- A RIFF/WAVE buffer with an `'fmt '` chunk but no `'data'` chunk
(36 bytes). -/
def wavNoDataBytes : List Byte :=
  [82, 73, 70, 70,  28, 0, 0, 0,  87, 65, 86, 69,
   102, 109, 116, 32,  16, 0, 0, 0,
   1, 0, 1, 0,  128, 62, 0, 0,  0, 125, 0, 0,  2, 0, 16, 0]

/-- A RIFF/WAVE buffer whose `'data'` chunk declares 4 bytes of PCM data
but is followed by only 2 bytes: 46 bytes in total, data bytes start at
offset 44. -/
def wavTruncatedBytes : List Byte :=
  [82, 73, 70, 70,  38, 0, 0, 0,  87, 65, 86, 69,
   102, 109, 116, 32,  16, 0, 0, 0,
   1, 0, 1, 0,  128, 62, 0, 0,  0, 125, 0, 0,  2, 0, 16, 0,
   100, 97, 116, 97,  4, 0, 0, 0,  0, 0]

/-- Two PCM16 samples: `0x8000 = -32768` and `0x7FFF = 32767`. -/
def pcmWitnessBytes : List Byte := [0, 128, 255, 127]

/-! ## Claim C1 — decode failure handling -/

/-- C1 counterexample: the worker does **not** fail with a FormatError on
a missing RIFF header or a missing data chunk.  On the RIFF buffer with no
data chunk the inner parse raises `'WAV data chunk not found'`, but the
surrounding catch swallows it and the handler still produces a raw sample
buffer; on a non-RIFF buffer the bytes are reinterpreted as raw float
samples directly.  In both cases a decoded sample buffer is returned. -/
theorem decodeWav_formaterror_counterexample :
    tryDecodeWav wavNoDataBytes none = .error "WAV data chunk not found" ∧
    (determineAudioInput wavNoDataBytes none).map AudioInput.isRawBuffer = some true ∧
    (determineAudioInput nonRiffBytes none).map AudioInput.isRawBuffer = some true := by
  decide

/-- C1 (amended): on a non-RIFF payload the worker never produces a WAV
parse result (it reinterprets the bytes as raw float samples), and
whenever the inner try block raises — including the
`'WAV data chunk not found'` case — the catch falls back to
reinterpreting the payload as a `Float32Array` instead of surfacing a
FormatError. -/
theorem decodeWav_fallback_behavior (bytes : List Byte) (msgRate : Option Nat)
    (h12 : 12 ≤ bytes.length) :
    (chunkIdAt bytes 0 ≠ riffMagic →
      ∀ s r, determineAudioInput bytes msgRate ≠ some (.wav s r)) ∧
    (∀ e, tryDecodeWav bytes msgRate = .error e →
      determineAudioInput bytes msgRate =
        (match float32Words bytes with
         | .ok words => some (.raw words)
         | .error _ => none)) := by
  constructor
  · intro hriff s r
    unfold determineAudioInput tryDecodeWav
    rw [if_neg (by omega), if_neg hriff]
    cases hf : float32Words bytes with
    | ok words => cases msgRate <;> simp [Except.map]
    | error e => simp [Except.map, hf]
  · intro e he
    unfold determineAudioInput
    rw [he]

/-- C1 amended-claim witness at a concrete non-RIFF buffer. -/
theorem decodeWav_fallback_behavior_witness :
    12 ≤ nonRiffBytes.length ∧
    (∀ s r, determineAudioInput nonRiffBytes none ≠ some (.wav s r)) :=
  ⟨by decide, (decodeWav_fallback_behavior nonRiffBytes none (by decide)).1 (by decide)⟩

/-! ## Claim C4 — bounds of the PCM16 decode loop -/

/-- C4: the decode loop trusts the declared data-chunk size and does read
past the end of the buffer.  On `wavTruncatedBytes` the data chunk at
offset 44 declares 4 bytes while only 2 remain, and the PCM16 loop's
second `getInt16` lands out of bounds (the JS `DataView.getInt16` throws a
`RangeError` there), contradicting the claim that every sample read is in
bounds. -/
theorem pcm16_loop_reads_past_buffer :
    findDataChunk wavTruncatedBytes 12 = some (44, 4) ∧
    wavTruncatedBytes.length = 46 ∧
    getInt16At wavTruncatedBytes 46 = none ∧
    tryDecodeWav wavTruncatedBytes none =
      .error "RangeError: out-of-bounds getInt16" := by
  decide

/-! ## Claim C5 — PCM16 to float conversion -/

theorem byteAt_lt (bytes : List Byte) (o : Nat) : byteAt bytes o < 256 :=
  (bytes.getD o 0).isLt

theorem getInt16At_bounds {bytes : List Byte} {o : Nat} {v : Int}
    (h : getInt16At bytes o = some v) : -32768 ≤ v ∧ v ≤ 32767 := by
  unfold getInt16At at h
  split at h
  · have h0 := byteAt_lt bytes o
    have h1 := byteAt_lt bytes (o + 1)
    simp only [Option.some.injEq] at h
    subst h
    split <;> omega
  · exact absurd h (by simp)

theorem pcm16ToFloat_bounds {v : Int} (h1 : -32768 ≤ v) (h2 : v ≤ 32767) :
    -1 ≤ pcm16ToFloat v ∧ pcm16ToFloat v ≤ 1 := by
  unfold pcm16ToFloat
  split
  case isTrue hv =>
    have hv' : (v : ℚ) < 0 := by exact_mod_cast hv
    have h1' : (-32768 : ℚ) ≤ (v : ℚ) := by exact_mod_cast h1
    constructor
    · rw [le_div_iff (by norm_num : (0:ℚ) < 32768)]
      linarith
    · have : (v : ℚ) / 32768 ≤ 0 := by
        apply div_nonpos_of_nonpos_of_nonneg (le_of_lt hv') (by norm_num)
      linarith
  case isFalse hv =>
    have hv' : (0 : ℚ) ≤ (v : ℚ) := by exact_mod_cast not_lt.mp hv
    have h2' : (v : ℚ) ≤ 32767 := by exact_mod_cast h2
    constructor
    · have : (0 : ℚ) ≤ (v : ℚ) / 32767 := by positivity
      linarith
    · rw [div_le_one (by norm_num : (0:ℚ) < 32767)]
      exact h2'

/-- C5: the PCM16 decode loop converts each successfully read 16-bit
little-endian sample value `v` by the inverse of the encode scaling —
`v/32768` when `v` is negative and `v/32767` when `v` is non-negative —
and consequently every decoded sample lies in `[-1, 1]`. -/
theorem readPcm16_inverse_scaling_in_range :
    ∀ (n : Nat) (bytes : List Byte) (off : Nat) (samples : List ℚ),
      readPcm16 bytes off n = .ok samples →
      samples.length = n ∧
      (∀ i, i < n → ∃ v : Int, getInt16At bytes (off + 2 * i) = some v ∧
        -32768 ≤ v ∧ v ≤ 32767 ∧
        samples.getD i 0 = (if v < 0 then (v : ℚ) / 32768 else (v : ℚ) / 32767)) ∧
      (∀ q ∈ samples, -1 ≤ q ∧ q ≤ 1) := by
  intro n
  induction n with
  | zero =>
    intro bytes off samples h
    simp only [readPcm16, Except.ok.injEq] at h
    subst h
    refine ⟨rfl, fun i hi => absurd hi (by omega), fun q hq => absurd hq (by simp)⟩
  | succ n ih =>
    intro bytes off samples h
    unfold readPcm16 at h
    cases hv : getInt16At bytes off with
    | none => rw [hv] at h; exact absurd h (by simp)
    | some v =>
      rw [hv] at h
      cases hr : readPcm16 bytes (off + 2) n with
      | error e => rw [hr] at h; exact absurd h (by simp [Except.map])
      | ok rest =>
        rw [hr] at h
        simp only [Except.map, Except.ok.injEq] at h
        subst h
        obtain ⟨hlen, hidx, hrange⟩ := ih bytes (off + 2) rest hr
        obtain ⟨hb1, hb2⟩ := getInt16At_bounds hv
        refine ⟨by simp [hlen], ?_, ?_⟩
        · intro i hi
          cases i with
          | zero =>
            refine ⟨v, by simpa using hv, hb1, hb2, ?_⟩
            simp [pcm16ToFloat]
          | succ j =>
            obtain ⟨w, hw, hw1, hw2, hw3⟩ := hidx j (by omega)
            refine ⟨w, ?_, hw1, hw2, by simpa using hw3⟩
            have : off + 2 * (j + 1) = off + 2 + 2 * j := by omega
            rw [this]
            exact hw
        · intro q hq
          rcases List.mem_cons.mp hq with rfl | hq'
          · exact pcm16ToFloat_bounds hb1 hb2
          · exact hrange q hq'

/-- C5 witness: decoding the two samples `0x8000` and `0x7FFF` yields
`[-1, 1]`, satisfying the inverse-scaling formula and the range bound. -/
theorem readPcm16_inverse_scaling_in_range_witness :
    readPcm16 pcmWitnessBytes 0 2 = .ok [(-1 : ℚ), 1] ∧
    (([(-1 : ℚ), 1] : List ℚ).length = 2 ∧
      (∀ i, i < 2 → ∃ v : Int, getInt16At pcmWitnessBytes (0 + 2 * i) = some v ∧
        -32768 ≤ v ∧ v ≤ 32767 ∧
        ([(-1 : ℚ), 1] : List ℚ).getD i 0 =
          (if v < 0 then (v : ℚ) / 32768 else (v : ℚ) / 32767)) ∧
      (∀ q ∈ ([(-1 : ℚ), 1] : List ℚ), -1 ≤ q ∧ q ≤ 1)) := by
  have h : readPcm16 pcmWitnessBytes 0 2 = .ok [(-1 : ℚ), 1] := by
    have h0 : getInt16At pcmWitnessBytes 0 = some (-32768) := by decide
    have h1 : getInt16At pcmWitnessBytes 2 = some 32767 := by decide
    simp only [readPcm16, h0, h1, Except.map, pcm16ToFloat]
    norm_num
  exact ⟨h, readPcm16_inverse_scaling_in_range 2 pcmWitnessBytes 0 _ h⟩

/-! ## Claim C3 — at most one in-flight inference call -/

instance (s : RtState) : Decidable (rtAtMostOne s) := by
  unfold rtAtMostOne; infer_instance

/-- C3 counterexample: with the transcriber loaded, audio buffered and a
non-final call still in flight (`busy = true` after its start), the final
pass taken at stop passes the guard through the `isFinal` bypass and
starts a **second** concurrent engine invocation against the same model
instance. -/
theorem finalPass_concurrent_invocation_counterexample :
    (processRealtimeAudioStart ⟨true, 1, false, 0⟩ false).engineCalls = 1 ∧
    (processRealtimeAudioStart ⟨true, 1, false, 0⟩ false).busy = true ∧
    (processRealtimeAudioStart
      (processRealtimeAudioStart ⟨true, 1, false, 0⟩ false) true).engineCalls = 2 := by
  decide

/-- C3 (amended): non-final calls respect the busy guard — a second
non-final `processRealtimeAudio` issued while one is pending is dropped
without starting an engine invocation — so the at-most-one-in-flight
invariant is preserved by every non-final start and every completion; only
the final full-context pass bypasses the guard. -/
theorem nonfinal_at_most_one_inflight (s : RtState) (h : rtAtMostOne s) :
    rtAtMostOne (processRealtimeAudioStart s false) ∧
    rtAtMostOne (processRealtimeAudioFinish s) ∧
    (s.busy = true → processRealtimeAudioStart s false = s) := by
  obtain ⟨hle, hiff⟩ := h
  rcases s with ⟨htr, pc, b, ec⟩
  simp only [rtAtMostOne, processRealtimeAudioStart, processRealtimeAudioFinish] at *
  cases htr <;> cases b <;> by_cases hpc : pc = 0 <;>
    simp_all <;> omega

/-- C3 amended-claim witness: from the idle well-formed state a non-final
start preserves the invariant. -/
theorem nonfinal_at_most_one_inflight_witness :
    rtAtMostOne ⟨true, 1, false, 0⟩ ∧
    rtAtMostOne (processRealtimeAudioStart ⟨true, 1, false, 0⟩ false) :=
  ⟨by decide, (nonfinal_at_most_one_inflight ⟨true, 1, false, 0⟩ (by decide)).1⟩

/-! ## Claim C6 — inference failure handling -/

/-- C6 counterexample: an inference-call failure does **not** leave the
previously displayed transcript untouched — the `part_002` error path
replaces it wholesale with a pipeline-error message, and the live-chunk
variant's final pass appends an error marker to it. -/
theorem inference_failure_overwrites_transcript_counterexample :
    transcribeAudioResult "previous transcript" (.failed "boom") ≠
      "previous transcript" ∧
    processAudioResult "previous transcript" (.failed "boom") ≠
      "previous transcript" := by
  constructor <;> decide

/-- C6 (amended): an inference-call failure is surfaced and is not retried
automatically (the `part_002` call invokes the engine exactly once and its
error path returns), but the error is surfaced **through the transcript
display itself**: `part_002` overwrites the display with
`"(Pipeline error: …)"` and the live-chunk final pass appends
`" [Error transcribing final audio]"` instead of leaving the display
untouched. -/
theorem inference_failure_error_paths (prev msg : String) :
    transcribeAudioResult prev (.failed msg) = "(Pipeline error: " ++ msg ++ ")" ∧
    processAudioResult prev (.failed msg) = prev ++ " [Error transcribing final audio]" ∧
    transcribeAudioEngineCalls (.failed msg) = 1 :=
  ⟨rfl, rfl, rfl⟩

/-! ## Claim C7 — stale-load discard -/

/-- C7: the generation counter makes stale model-load events inert.
Starting a load bumps the token; progress/ready/error events never change
the token; an event carrying a token different from the current one leaves
the whole state (displayed progress, status and installed transcriber)
unchanged; and after a second load starts, the first load's token no
longer matches the current one, so all of its late events are
discarded. -/
theorem stale_load_events_discarded :
    (∀ s : ModelState, ((startLoad s).1).loadToken = s.loadToken + 1 ∧
      (startLoad s).2 = s.loadToken + 1) ∧
    (∀ (s : ModelState) (g p : Nat),
      (onLoadProgress s g p).loadToken = s.loadToken ∧
      (onLoadReady s g).loadToken = s.loadToken ∧
      (onLoadError s g).loadToken = s.loadToken) ∧
    (∀ (s : ModelState) (g p : Nat), g ≠ s.loadToken →
      onLoadProgress s g p = s ∧ onLoadReady s g = s ∧ onLoadError s g = s) ∧
    (∀ s : ModelState,
      ((startLoad ((startLoad s).1)).1).loadToken ≠ (startLoad s).2) := by
  refine ⟨fun s => ⟨rfl, rfl⟩, fun s g p => ⟨?_, ?_, ?_⟩, fun s g p hg => ⟨?_, ?_, ?_⟩,
    fun s => ?_⟩
  · unfold onLoadProgress; split <;> rfl
  · unfold onLoadReady; split <;> rfl
  · unfold onLoadError; split <;> rfl
  · unfold onLoadProgress; rw [if_neg (fun h => hg h.symm)]
  · unfold onLoadReady; rw [if_neg (fun h => hg h.symm)]
  · unfold onLoadError; rw [if_neg (fun h => hg h.symm)]
  · simp [startLoad]

/-- C7 witness: a progress event of generation 1 arriving while the
current generation is 2 changes nothing. -/
theorem stale_load_events_discarded_witness :
    (1 : Nat) ≠ (⟨2, .loading, 0, none⟩ : ModelState).loadToken ∧
    onLoadProgress ⟨2, .loading, 0, none⟩ 1 50 = ⟨2, .loading, 0, none⟩ :=
  ⟨by decide,
    (stale_load_events_discarded.2.2.1 ⟨2, .loading, 0, none⟩ 1 50 (by decide)).1⟩

/-! ## Claim C8 — correlation id propagation -/

theorem pipelineLoadPosts_mem {pe : Nat} {fl : Bool} {m : WorkerMsg}
    (hm : m ∈ pipelineLoadPosts pe fl) :
    m.messageId = none ∧
    (m.status = "initiate" ∨ m.status = "progress" ∨ m.status = "ready" ∨
      (m.status = "error" ∧ fl = true)) := by
  simp only [pipelineLoadPosts, List.mem_cons, List.mem_append, List.mem_replicate,
    List.mem_singleton, List.not_mem_nil, or_false] at hm
  rcases hm with (rfl | ⟨-, rfl⟩) | rfl
  · simp
  · simp
  · cases fl <;> simp

/-- C8 counterexample: not every response for a request round-trips its
correlation id.  The `update` messages the worker posts during a request
carrying `messageId = 5` (similarly its `initiate`, `progress` and `ready`
posts) carry **no** correlation id at all; and when pipeline
initialisation fails, `createOrGetPipeline`'s catch posts an `error`
response that likewise carries no `messageId`. -/
theorem update_message_lacks_correlation_counterexample :
    (WorkerMsg.mk "update" none ∈ workerResponses (some 5) true 1 1 false false ∧
      (WorkerMsg.mk "update" none).messageId ≠ some 5) ∧
    (WorkerMsg.mk "error" none ∈ workerResponses (some 5) true 0 0 true false ∧
      (WorkerMsg.mk "error" none).messageId ≠ some 5) := by
  decide

/-- C8 (amended): `complete` responses and the terminal response the
message handler posts (also after a rethrown pipeline-init failure) carry
the request's `messageId` unchanged; the `initiate`, `progress`, `ready`
and `update` posts carry no correlation id; and `error` responses carry
the request's `messageId` except for the additional post made by
`createOrGetPipeline`'s catch when pipeline initialisation fails, which
carries none. -/
theorem worker_correlation_id_policy (mid : Option Nat) (freshLoad : Bool)
    (pe ue : Nat) (initFails transcribeFails : Bool) :
    (∀ m ∈ workerResponses mid freshLoad pe ue initFails transcribeFails,
      (m.status = "complete" → m.messageId = mid) ∧
      ((m.status = "initiate" ∨ m.status = "progress" ∨ m.status = "ready" ∨
          m.status = "update") → m.messageId = none) ∧
      (m.status = "error" → m.messageId = mid ∨
        (m.messageId = none ∧ freshLoad = true ∧ initFails = true))) ∧
    (workerResponses mid freshLoad pe ue initFails transcribeFails).getLast? =
      some (if freshLoad && initFails || transcribeFails then ⟨"error", mid⟩
            else ⟨"complete", mid⟩) ∧
    (freshLoad = true → initFails = true →
      WorkerMsg.mk "error" none ∈
        workerResponses mid freshLoad pe ue initFails transcribeFails) := by
  refine ⟨?_, ?_, ?_⟩
  · intro m hm
    have hsplit : (m.messageId = none ∧
        (m.status = "initiate" ∨ m.status = "progress" ∨ m.status = "ready" ∨
          m.status = "update" ∨
          (m.status = "error" ∧ freshLoad = true ∧ initFails = true))) ∨
        (m.messageId = mid ∧ (m.status = "complete" ∨ m.status = "error")) := by
      cases freshLoad with
      | false =>
        simp only [workerResponses, Bool.false_and, Bool.false_eq_true, if_false,
          List.nil_append, List.mem_append, List.mem_replicate,
          List.mem_singleton] at hm
        rcases hm with ⟨-, rfl⟩ | rfl
        · exact .inl ⟨rfl, by tauto⟩
        · cases transcribeFails with
          | false => exact .inr ⟨rfl, .inl rfl⟩
          | true => exact .inr ⟨rfl, .inr rfl⟩
      | true =>
        cases initFails with
        | true =>
          simp only [workerResponses, Bool.true_and, if_true, List.mem_append,
            List.mem_singleton] at hm
          rcases hm with hm | rfl
          · obtain ⟨h1, h2⟩ := pipelineLoadPosts_mem hm
            refine .inl ⟨h1, ?_⟩
            rcases h2 with h | h | h | ⟨h, -⟩
            · exact .inl h
            · exact .inr (.inl h)
            · exact .inr (.inr (.inl h))
            · exact .inr (.inr (.inr (.inr ⟨h, rfl, rfl⟩)))
          · exact .inr ⟨rfl, .inr rfl⟩
        | false =>
          simp only [workerResponses, Bool.and_false, Bool.false_eq_true, if_false,
            if_true, List.mem_append, List.mem_replicate, List.mem_singleton] at hm
          rcases hm with (hm | ⟨-, rfl⟩) | rfl
          · obtain ⟨h1, h2⟩ := pipelineLoadPosts_mem hm
            refine .inl ⟨h1, ?_⟩
            rcases h2 with h | h | h | ⟨-, h⟩
            · exact .inl h
            · exact .inr (.inl h)
            · exact .inr (.inr (.inl h))
            · exact absurd h (by decide)
          · exact .inl ⟨rfl, by tauto⟩
          · cases transcribeFails with
            | false => exact .inr ⟨rfl, .inl rfl⟩
            | true => exact .inr ⟨rfl, .inr rfl⟩
    rcases hsplit with ⟨h1, h2⟩ | ⟨h1, h2⟩
    · refine ⟨fun h => ?_, fun _ => h1, fun h => ?_⟩
      · rcases h2 with h2 | h2 | h2 | h2 | ⟨h2, -⟩ <;> rw [h] at h2 <;> simp at h2
      · rcases h2 with h2 | h2 | h2 | h2 | ⟨-, hfl, hif⟩
        · rw [h] at h2; simp at h2
        · rw [h] at h2; simp at h2
        · rw [h] at h2; simp at h2
        · rw [h] at h2; simp at h2
        · exact .inr ⟨h1, hfl, hif⟩
    · refine ⟨fun _ => h1, fun h => ?_, fun _ => .inl h1⟩
      rcases h with h | h | h | h <;> rcases h2 with h2 | h2 <;> rw [h] at h2 <;>
        simp at h2
  · unfold workerResponses
    split
    case isTrue h =>
      rw [List.getLast?_concat]
      simp [h]
    case isFalse h =>
      rw [List.getLast?_concat]
      have h' : (freshLoad && initFails) = false := by
        cases hfa : freshLoad && initFails
        · rfl
        · exact absurd hfa h
      simp [h']
  · intro hfl hif
    subst hfl; subst hif
    simp [workerResponses, pipelineLoadPosts]

/-- C8 amended-claim witness at the terminal message of a concrete
request. -/
theorem worker_correlation_id_policy_witness :
    WorkerMsg.mk "complete" (some 5) ∈ workerResponses (some 5) true 1 1 false false ∧
    ((WorkerMsg.mk "complete" (some 5)).status = "complete" →
      (WorkerMsg.mk "complete" (some 5)).messageId = some 5) := by
  have hmem : WorkerMsg.mk "complete" (some 5) ∈
      workerResponses (some 5) true 1 1 false false := by
    decide
  exact ⟨hmem,
    ((worker_correlation_id_policy (some 5) true 1 1 false false).1 _ hmem).1⟩

/-! ## Claim C9 — transcript reset at session start -/

/-- C9 counterexample: the live-chunk variant's `startRecording` leaves a
previous session's transcript in place (it only resets the chunk buffer),
and the first chunk result of the new session is appended after the stale
text rather than replacing it. -/
theorem live_variant_no_transcript_reset_counterexample :
    (startRecordingLive ⟨some .ready, "old words", 3⟩).transcription = "old words" ∧
    ("old words" : String) ≠ "" ∧
    liveChunkAppend "old words" "new" = "old words new" := by
  refine ⟨rfl, by decide, by decide⟩

/-- C9 (amended): the press-and-hold variants reset the displayed
transcript to the empty string at the start of every recording session,
before any new recognition result is shown; the live-chunk variant's
`startRecording` leaves the previous transcript in place and new chunk
results are appended to it. -/
theorem startRecording_transcript_behavior (s : SessionState) :
    (startRecordingMain s).transcription = "" ∧
    (startRecordingMain s).status = some .recording ∧
    (startRecordingLive s).transcription = s.transcription :=
  ⟨rfl, rfl, rfl⟩

/-! ## Claim C10 — chunk manager invariant -/

theorem getD_append_singleton {α : Type} (l : List α) (a d : α) :
    (l ++ [a]).getD l.length d = a := by
  rw [List.getD_eq_getElem _ _ (by simp)]
  exact List.getElem_concat_length _ _ _ rfl (by simp)

theorem getD_append_two {α : Type} (l : List α) (a b d : α) :
    ((l ++ [a]) ++ [b]).getD l.length d = a := by
  rw [List.getD_eq_getElem _ _ (by simp)]
  rw [List.getElem_append_left (by simp)]
  exact List.getElem_concat_length _ _ _ rfl (by simp)

/-- C10: `chunks_to_process` is non-empty from initialisation on and every
entry except possibly the last is finalised; `chunk_callback` marks the
current last entry finalised and appends a fresh unfinalised entry exactly
when the incoming chunk is not flagged `is_last`; `callback_function`
mutates only the token list of the last entry (all earlier entries and the
last entry's finalised flag are unchanged). -/
theorem chunkManager_invariant :
    chunksWellFormed initialChunks ∧
    (∀ (cs : List ChunkEntry) (c : IncomingChunk), chunksWellFormed cs →
      chunksWellFormed (chunk_callback cs c) ∧
      (chunk_callback cs c).length = cs.length + (if c.is_last then 0 else 1) ∧
      (c.is_last = false → (chunk_callback cs c).getLast? = some ⟨[], false, false⟩) ∧
      (chunk_callback cs c).getD (cs.length - 1) ⟨[], false, false⟩ =
        ⟨c.tokens, c.is_last, true⟩) ∧
    (∀ (cs : List ChunkEntry) (item : Option (List Nat)), chunksWellFormed cs →
      chunksWellFormed (callback_function cs item) ∧
      (callback_function cs item).dropLast = cs.dropLast ∧
      (callback_function cs item).length = cs.length ∧
      (callback_function cs item).getLast?.map ChunkEntry.finalised =
        cs.getLast?.map ChunkEntry.finalised ∧
      (callback_function cs item).getLast?.map ChunkEntry.isLast =
        cs.getLast?.map ChunkEntry.isLast) := by
  refine ⟨by decide, ?_, ?_⟩
  · rintro cs c ⟨hne, hfin⟩
    have hpos := List.length_pos.mpr hne
    have hdrop : cs.dropLast.length = cs.length - 1 := List.length_dropLast cs
    have hidx : cs.length - 1 = cs.dropLast.length := hdrop.symm
    unfold chunk_callback
    cases hc : c.is_last with
    | true =>
      simp only [hc, if_true]
      refine ⟨⟨by simp, ?_⟩, ?_, fun h => absurd h (by decide), ?_⟩
      · intro e he
        rw [List.dropLast_concat] at he
        exact hfin e he
      · simp only [List.length_append, List.length_singleton, hdrop]
        omega
      · rw [hidx]
        exact getD_append_singleton _ _ _
    | false =>
      simp only [hc, Bool.false_eq_true, if_false]
      refine ⟨⟨by simp, ?_⟩, ?_, fun _ => List.getLast?_concat _, ?_⟩
      · intro e he
        rw [List.dropLast_concat] at he
        rcases List.mem_append.mp he with h' | h'
        · exact hfin e h'
        · simp only [List.mem_singleton] at h'
          rw [h']
      · simp only [List.length_append, List.length_singleton, hdrop]
        omega
      · rw [hidx]
        exact getD_append_two _ _ _ _
  · rintro cs item ⟨hne, hfin⟩
    have hpos := List.length_pos.mpr hne
    have hdrop : cs.dropLast.length = cs.length - 1 := List.length_dropLast cs
    have hlast := List.getLast?_eq_getLast cs hne
    unfold callback_function
    rw [hlast]
    refine ⟨⟨by simp, ?_⟩, List.dropLast_concat, ?_, ?_, ?_⟩
    · intro e he
      rw [List.dropLast_concat] at he
      exact hfin e he
    · simp only [List.length_append, List.length_singleton, hdrop]
      omega
    · rw [List.getLast?_concat]; rfl
    · rw [List.getLast?_concat]; rfl

/-- C10 witness: the invariant holds initially and is preserved by a
non-final `chunk_callback`. -/
theorem chunkManager_invariant_witness :
    chunksWellFormed initialChunks ∧
    chunksWellFormed (chunk_callback initialChunks ⟨[7], false⟩) :=
  ⟨by decide, (chunkManager_invariant.2.1 initialChunks ⟨[7], false⟩ (by decide)).1⟩

/-! ## Claim C2 — resampler against the reference description -/

theorem round_rat_nonneg {q : ℚ} (hq : 0 ≤ q) : 0 ≤ round q := by
  rw [round_eq]
  exact Int.le_floor.mpr (by push_cast; linarith)

theorem resampleLength_cast {len : Nat} {s t : ℚ} (hs : 0 < s) (ht : 0 < t) :
    ((resampleLength len s t : Nat) : ℤ) = round ((len : ℚ) / (s / t)) := by
  unfold resampleLength
  exact Int.toNat_of_nonneg (round_rat_nonneg (by positivity))

theorem resample_pos_lt {len i : Nat} {s t : ℚ} (hs : 0 < s) (ht : 0 < t)
    (hi : i < resampleLength len s t) :
    (i : ℚ) * (s / t) < (len : ℚ) := by
  have hr : (0 : ℚ) < s / t := div_pos hs ht
  have h1 : (i : ℤ) < round ((len : ℚ) / (s / t)) := by
    rw [← resampleLength_cast hs ht]
    exact_mod_cast hi
  have h2 : ((round ((len : ℚ) / (s / t)) : ℤ) : ℚ) ≤ (len : ℚ) / (s / t) + 1 / 2 := by
    rw [round_eq]
    exact_mod_cast Int.floor_le ((len : ℚ) / (s / t) + 1 / 2)
  have h3 : ((i : ℤ) : ℚ) + 1 ≤ ((round ((len : ℚ) / (s / t)) : ℤ) : ℚ) := by
    exact_mod_cast h1
  have h4 : (i : ℚ) < (len : ℚ) / (s / t) := by push_cast at h3; linarith
  calc (i : ℚ) * (s / t) < ((len : ℚ) / (s / t)) * (s / t) :=
        mul_lt_mul_of_pos_right h4 hr
    _ = (len : ℚ) := div_mul_cancel₀ _ (ne_of_gt hr)

theorem resample_floor_lt {len i : Nat} {s t : ℚ} (hs : 0 < s) (ht : 0 < t)
    (hi : i < resampleLength len s t) :
    (⌊(i : ℚ) * (s / t)⌋).toNat < len := by
  have h := resample_pos_lt hs ht hi
  have h0 : (0 : ℚ) ≤ (i : ℚ) * (s / t) := by positivity
  have hf : ⌊(i : ℚ) * (s / t)⌋ < (len : ℤ) := Int.floor_lt.mpr (by exact_mod_cast h)
  have hf0 : 0 ≤ ⌊(i : ℚ) * (s / t)⌋ := Int.le_floor.mpr (by exact_mod_cast h0)
  omega

theorem resampleSampleAt_eq_ref (x : List ℚ) {s t : ℚ} (hs : 0 < s) (ht : 0 < t)
    {i : Nat} (hi : i < resampleLength x.length s t) :
    resampleSampleAt x s t i = resampleRefSample x s t i := by
  have hidx := @resample_floor_lt x.length i s t hs ht hi
  simp only [resampleSampleAt, resampleRefSample]
  split_ifs with h
  · rfl
  · have he : (⌊(i : ℚ) * (s / t)⌋).toNat = x.length - 1 := by omega
    rw [he]

theorem resampleRefSample_same_rate (x : List ℚ) {t : ℚ} (ht : 0 < t)
    {i : Nat} (hi : i < x.length) :
    resampleRefSample x t t i = x.getD i 0 := by
  have h1 : t / t = 1 := div_self (ne_of_gt ht)
  simp only [resampleRefSample, h1, mul_one, Int.floor_natCast, Int.toNat_natCast,
    sub_self]
  split_ifs with h
  · ring
  · have he : i = x.length - 1 := by omega
    rw [he]

/-- C2: `resampleAudio` agrees with the reference linear-interpolation
resampler of the specification: it is the identity when the rates
coincide; its output length is within ±1 of
`round(len(x) * targetRate/sourceRate)` (in fact it equals it exactly over
exact rational arithmetic); and every output sample equals the reference
formula — linear interpolation of the two bracketing source samples at
fractional position `i * sourceRate/targetRate`, clamped to the last input
sample when the interpolation would read past the end. -/
theorem resampleAudio_matches_reference (x : List ℚ) (s t : ℚ)
    (hs : 0 < s) (ht : 0 < t) :
    (s = t → resampleAudio x s t = x) ∧
    |((resampleAudio x s t).length : ℤ) - round ((x.length : ℚ) * t / s)| ≤ 1 ∧
    (∀ i, i < (resampleAudio x s t).length →
      (resampleAudio x s t).getD i 0 = resampleRefSample x s t i) := by
  have hdiv : (x.length : ℚ) / (s / t) = (x.length : ℚ) * t / s :=
    div_div_eq_mul_div _ _ _
  refine ⟨fun hst => by simp [resampleAudio, hst], ?_, ?_⟩
  · by_cases hst : s = t
    · subst hst
      have h1 : (x.length : ℚ) * s / s = (x.length : ℚ) :=
        mul_div_cancel_right₀ _ (ne_of_gt hs)
      simp [resampleAudio, h1, round_natCast]
    · have h2 : (resampleAudio x s t).length = resampleLength x.length s t := by
        simp [resampleAudio, hst]
      rw [h2, ← hdiv, resampleLength_cast hs ht]
      simp
  · intro i hi
    by_cases hst : s = t
    · subst hst
      rw [show resampleAudio x s s = x from by simp [resampleAudio]] at hi ⊢
      exact (resampleRefSample_same_rate x hs hi).symm
    · have h2 : resampleAudio x s t =
          (List.range (resampleLength x.length s t)).map (resampleSampleAt x s t) := by
        simp [resampleAudio, hst]
      rw [h2] at hi ⊢
      have hi' : i < resampleLength x.length s t := by simpa using hi
      rw [List.getD_eq_getElem _ _ (by simpa using hi)]
      rw [List.getElem_map, List.getElem_range]
      exact resampleSampleAt_eq_ref x hs ht hi'

/-- C2 witness: downsampling `[1, 3]` from rate 4 to rate 2 produces one
sample, matching the reference formula. -/
theorem resampleAudio_matches_reference_witness :
    (0 : ℚ) < 4 ∧ (0 : ℚ) < 2 ∧
    (((4 : ℚ) = 2 → resampleAudio [1, 3] 4 2 = [1, 3]) ∧
      |((resampleAudio [(1 : ℚ), 3] 4 2).length : ℤ) -
        round ((([(1 : ℚ), 3].length : Nat) : ℚ) * 2 / 4)| ≤ 1 ∧
      (∀ i, i < (resampleAudio [(1 : ℚ), 3] 4 2).length →
        (resampleAudio [(1 : ℚ), 3] 4 2).getD i 0 =
          resampleRefSample [(1 : ℚ), 3] 4 2 i)) :=
  ⟨by norm_num, by norm_num,
    resampleAudio_matches_reference [1, 3] 4 2 (by norm_num) (by norm_num)⟩
